import Mathlib

/-!
Verification development for the retrieval pipeline implemented in
`lib/services/chroma.ts`: query classification, embedding cache, per-file
multi-strategy retrieval, diversity filtering, reranking and the CSV
extractor.  Numbers that are IEEE doubles in the source are modelled as
rationals (`ℚ`); the floating-point constants involved (0.6, 0.4, 0.2,
0.1, 0.3, 0.7) are far from any decision boundary reached by the inputs
considered here, so the rational model agrees with the double-precision
computation on them.  External services (the embedding provider and the
Chroma vector store) are modelled as explicit environment parameters;
thrown JS exceptions are modelled with `Except`.  The source's stable
`Array.prototype.sort` is modelled with `List.insertionSort`, which is
stable for the comparators used here.
-/

namespace ChromaSpec

/-! ### JavaScript string primitives used by the source -/

/-- Characters matched by the JavaScript regex `\s` (the ASCII whitespace
characters plus NBSP and the Unicode line separators; the source only ever
splits natural-language text, for which this set is exact). -/
def isJsWs (c : Char) : Bool :=
  c = ' ' || c = '\t' || c = '\n' || c = '\r' ||
  c.val = 11 || c.val = 12 || c.val = 160 ||
  c.val = 0x2028 || c.val = 0x2029 || c.val = 0xfeff

/-- Worker for `splitWs`.  When `inTok` is true we are reading a token
(`cur` holds it, reversed); when false we are inside a whitespace run
whose token has already been emitted.  A maximal whitespace run separates
tokens exactly like `String.prototype.split(/\s+/)`: leading and trailing
runs produce empty tokens, and splitting never yields an empty list. -/
def splitWsAux (inTok : Bool) (cur : List Char) : List Char → List String
  | [] => [String.mk cur.reverse]
  | c :: cs =>
    if inTok then
      if isJsWs c then String.mk cur.reverse :: splitWsAux false [] cs
      else splitWsAux true (c :: cur) cs
    else
      if isJsWs c then splitWsAux false [] cs
      else splitWsAux true [c] cs

/-- Model of the JavaScript expression `s.split(/\s+/)`. -/
def splitWs (s : String) : List String :=
  splitWsAux true [] s.toList

/-- Model of `s.toLowerCase()`; `Char.toLower` agrees with JavaScript on
ASCII, which covers every keyword the source compares against. -/
def jsToLower (s : String) : String :=
  String.mk (s.toList.map Char.toLower)

/-- Model of `s.includes(sub)`: substring containment. -/
def jsIncludes (s sub : String) : Bool :=
  decide (sub.toList <:+: s.toList)

theorem splitWsAux_ne_nil (l : List Char) :
    ∀ inTok cur, splitWsAux inTok cur l ≠ [] := by
  induction l with
  | nil => intro inTok cur; simp [splitWsAux]
  | cons c cs ih =>
    intro inTok cur
    rw [splitWsAux]
    by_cases h : isJsWs c <;> cases inTok <;> simp [h] <;> apply ih

/-- `splitWs` never returns the empty list, matching the JS split. -/
theorem splitWs_ne_nil (s : String) : splitWs s ≠ [] :=
  splitWsAux_ne_nil s.toList true []

/-! ### Query classifier (`detectQueryType`, chroma.ts lines 37-60) -/

inductive QueryType where
  | overview
  | explanation
  | specific
deriving DecidableEq, Repr

def overviewKeywords : List String :=
  ["overview", "summary", "summarize", "chapter",
   "introduction", "introduce", "what is covered",
   "main topics", "key concepts", "outline"]

def explanationKeywords : List String :=
  ["explain", "describe", "what is", "how does",
   "define", "tell me about", "elaborate"]

/-- Model of `detectQueryType(query)`. -/
def detectQueryType (query : String) : QueryType :=
  let lowerQuery := jsToLower query
  if overviewKeywords.any (fun kw => jsIncludes lowerQuery kw) then
    .overview
  else if explanationKeywords.any (fun kw => jsIncludes lowerQuery kw) then
    .explanation
  else
    .specific

example : detectQueryType "Can you summarize chapter 3?" = .overview := by decide
example : detectQueryType "What is entropy?" = .explanation := by decide
example : detectQueryType "What page mentions GDP growth in 2020?" = .specific := by decide

/-! ### Chunk metadata

The source attaches loosely-typed metadata bags to chunks; the retrieval
code only ever reads `chunkIndex` and `totalChunks` from them, so the
model keeps exactly those two (optional) fields. -/

structure ChunkMeta where
  chunkIndex : Option Nat := none
  totalChunks : Option Nat := none
deriving DecidableEq, Repr, Inhabited

/-! ### Textual similarity (`calculateSimilarity`, chroma.ts lines 999-1007) -/

/-- The `new Set(text.toLowerCase().split(/\s+/))` of the source. -/
def wordSet (text : String) : Finset String :=
  (splitWs (jsToLower text)).toFinset

/-- Model of `calculateSimilarity(text1, text2)`: token-set Jaccard
similarity (`intersection.size / union.size`). -/
def calculateSimilarity (text1 text2 : String) : ℚ :=
  ((wordSet text1 ∩ wordSet text2).card : ℚ) /
    ((wordSet text1 ∪ wordSet text2).card : ℚ)

theorem calculateSimilarity_comm (a b : String) :
    calculateSimilarity a b = calculateSimilarity b a := by
  unfold calculateSimilarity
  rw [Finset.inter_comm, Finset.union_comm]

/-! ### Diversity filter (`applyDiversityFilter`, chroma.ts lines 955-996) -/

/-- Worker for `applyDiversityFilter`: walks the indexed documents in
order, keeping `sel` (index-and-document pairs already accepted, in
acceptance order).  A candidate is accepted iff its similarity to every
already-accepted document is not greater than `threshold`; the loop exits
as soon as `maxResults` documents are accepted. -/
def diversityGo (threshold : ℚ) (maxResults : Nat) :
    List (Nat × String) → List (Nat × String) → List (Nat × String)
  | [], sel => sel
  | (i, d) :: rest, sel =>
    if sel.length < maxResults then
      if sel.all (fun s => !(calculateSimilarity d s.2 > threshold)) then
        diversityGo threshold maxResults rest (sel ++ [(i, d)])
      else
        diversityGo threshold maxResults rest sel
    else sel

/-- Model of `applyDiversityFilter({documents, metadatas, distances,
threshold, maxResults})`.  The source indexes `metadatas` and `distances`
by the selected positions; a position past the end of those arrays would
read `undefined` in JS, modelled by a default. -/
def applyDiversityFilter (documents : List String) (metadatas : List ChunkMeta)
    (distances : List ℚ) (threshold : ℚ) (maxResults : Nat) :
    List String × List ChunkMeta × List ℚ :=
  let selected := diversityGo threshold maxResults documents.enum []
  (selected.map (·.2),
   selected.map (fun s => metadatas.getD s.1 default),
   selected.map (fun s => distances.getD s.1 0))

theorem calculateSimilarity_abc_abd : calculateSimilarity "a b c" "a b d" = 1/2 := by
  have h1 : (wordSet "a b c" ∩ wordSet "a b d").card = 2 := by decide
  have h2 : (wordSet "a b c" ∪ wordSet "a b d").card = 4 := by decide
  rw [calculateSimilarity, h1, h2]
  norm_num

/-! ### Reranker (`rerankByRelevance`, chroma.ts lines 1010-1064) -/

/-- JS `x || 1` applied to an optional numeric field (`undefined` and `0`
are falsy). -/
def jsOrOne (o : Option Nat) : Nat :=
  match o with
  | some n => if n = 0 then 1 else n
  | none => 1

/-- The reranker's `keywordScore`: fraction of query terms literally
contained in the lowercased document. -/
def keywordScore (queryTerms : List String) (docLower : String) : ℚ :=
  ((queryTerms.filter (fun term => jsIncludes docLower term)).length : ℚ) /
    (queryTerms.length : ℚ)

/-- The reranker's `positionScore`: `metadatas[i]?.chunkIndex ? 1 -
(chunkIndex / (totalChunks || 1)) * 0.1 : 1` (a missing or zero
`chunkIndex` is falsy, giving 1). -/
def positionScore (m : ChunkMeta) : ℚ :=
  match m.chunkIndex with
  | some ci =>
    if ci = 0 then 1
    else 1 - ((ci : ℚ) / (jsOrOne m.totalChunks : ℚ)) * (1/10)
  | none => 1

/-- The composite per-chunk rerank score: `semanticScore * 0.6 +
keywordScore * 0.3 + positionScore * 0.1` with `semanticScore = 1 -
(distances[i] || 0)`. -/
def rerankScore (queryTerms : List String) (doc : String) (dist : ℚ)
    (m : ChunkMeta) : ℚ :=
  (1 - dist) * (6/10) + keywordScore queryTerms (jsToLower doc) * (3/10) +
    positionScore m * (1/10)

/-- One scored row of the reranker. -/
structure RerankEntry where
  document : String
  metadata : ChunkMeta
  distance : ℚ
  score : ℚ
deriving Repr

/-- Model of `rerankByRelevance({query, documents, metadatas, distances,
topK})`: score every chunk, sort descending by score (stable), keep the
top `topK`. -/
def rerankByRelevance (query : String) (documents : List String)
    (metadatas : List ChunkMeta) (distances : List ℚ) (topK : Nat) :
    List String × List ChunkMeta × List ℚ :=
  let queryTerms := splitWs (jsToLower query)
  let scored := documents.enum.map (fun p =>
    let doc := p.2
    let m := metadatas.getD p.1 default
    let d := distances.getD p.1 0
    RerankEntry.mk doc m d (rerankScore queryTerms doc d m))
  let sorted := scored.insertionSort (fun a b => b.score ≤ a.score)
  let top := sorted.take topK
  (top.map (·.document), top.map (·.metadata), top.map (·.distance))

/-! ### CSV extractor (`processCSV`, chroma.ts lines 298-342) -/

/-- Splits a string at every character satisfying `p` (like
`String.split`: `"a,,b"` on commas gives `["a", "", "b"]`, and the result
is never empty). -/
def splitCharAux (p : Char → Bool) (cur : List Char) : List Char → List String
  | [] => [String.mk cur.reverse]
  | c :: cs =>
    if p c then String.mk cur.reverse :: splitCharAux p [] cs
    else splitCharAux p (c :: cur) cs

def splitChar (p : Char → Bool) (s : String) : List String :=
  splitCharAux p [] s.toList

/-- Splits one CSV line into comma-separated fields. -/
def splitCommas (line : String) : List String :=
  splitChar (· = ',') line

/-- Modelled from the spec: the parse performed by the external PapaParse
library under `{header: true, skipEmptyLines: true, dynamicTyping: false}`
("CSV: parsed with header row"), restricted to inputs without quoted
fields: lines are newline-separated, empty lines are skipped, the first
line gives the headers, and every later line becomes one record whose
value for header `i` is its `i`-th comma-separated field (`none`, i.e. JS
`undefined`, when the row is shorter than the header).  Returns the header
names and the rows keyed positionally by those headers. -/
def parseCSVModel (csv : String) : List String × List (List (Option String)) :=
  let lines := (splitChar (· = '\n') csv).filter (fun line => line ≠ "")
  match lines with
  | [] => ([], [])
  | header :: rest =>
    let headers := splitCommas header
    let rows := rest.map (fun line =>
      let fields := splitCommas line
      (List.range headers.length).map (fun i => fields.get? i))
    (headers, rows)

/-- JS `String(value).replace(/\|/g, '\\|')` escaping literal pipes. -/
def escapePipes (s : String) : String :=
  String.mk ((s.toList.map (fun c => if c = '|' then ['\\', '|'] else [c])).flatten)

/-- Model of `processCSV(buffer)` on the decoded text: convert the parsed
CSV to a pipe-delimited Markdown table; return the raw text when parsing
yields no rows or no headers. -/
def processCSV (csvText : String) : String :=
  let parsed := parseCSVModel csvText
  let headers := parsed.1
  let data := parsed.2
  if data.isEmpty then csvText
  else if headers.isEmpty then csvText
  else
    let headerRow := "| " ++ String.intercalate " | " headers ++ " |\n"
    let sepRow := "| " ++ String.intercalate " | " (headers.map (fun _ => "---")) ++ " |\n"
    let dataRows := data.map (fun row =>
      "| " ++ String.intercalate " | "
        (row.map (fun v => match v with
          | some s => escapePipes s
          | none => "")) ++ " |\n")
    headerRow ++ sepRow ++ String.join dataRows

example :
    processCSV "name,age\nAlice,30\nBob,25\n"
      = "| name | age |\n| --- | --- |\n| Alice | 30 |\n| Bob | 25 |\n" := by decide

/-! ### Overview-strategy per-file retrieval
(`retrieveOverviewContextForFile`, chroma.ts lines 647-768) -/

/-- A vector is a list of numbers (embedding coordinates). -/
abbrev Vec := List ℚ

/-- The in-process embedding cache (`embeddingCache = new Map(...)`),
modelled as an association list whose `lookup` finds the most recent
binding, matching `Map.get` after `Map.set` overwrites. -/
abbrev Cache := List (String × Vec)

/-- One raw single-query result from the Chroma store, i.e. the `[0]`-th
rows of `collection.query(...)`: ids may be absent (the source checks
their truthiness), metadatas and distances may be null (the source
filters or defaults them); documents are always present for a query with
default includes. -/
structure RawResult where
  ids : List (Option String)
  documents : List String
  metadatas : List (Option ChunkMeta)
  distances : List (Option ℚ)
deriving Repr

/-- One per-file result list, in the shape the per-file tasks of
`queryDocuments` resolve with. -/
structure PerFileResult where
  fileId : String
  documents : List String
  metadatas : List ChunkMeta
  distances : List ℚ
deriving Repr

/-- The per-file result of a standard (non-overview) collection query:
`documents[0]` with the source's null filters applied to metadatas and
distances (`documents` are non-null by the store contract, so their
filter is the identity). -/
def stdPerFile (fileId : String) (raw : RawResult) : PerFileResult :=
  { fileId := fileId
    documents := raw.documents
    metadatas := raw.metadatas.filterMap id
    distances := raw.distances.filterMap id }

/-- The external world `queryDocuments` interacts with: the MD5 content
hash (`getCacheKey`, modelled as an abstract hash function), the
embedding provider (`embeddings.embedDocuments`, which may throw), and
the Chroma client (`getCollection` may throw for a missing collection —
modelled by `false` — and `collection.query` may throw). -/
structure Env where
  hash : String → String
  embedDocs : List String → Except Unit (List Vec)
  getCollection : String → Bool
  queryCol : String → Vec → Nat → Except Unit RawResult

/-- Trace of `collection.query` calls: which collection was asked for how
many results.  A ghost observation used to state over-fetching claims. -/
abbrev QueryTrace := List (String × Nat)

/-- The lookup-or-embed-and-cache step the source performs both for the
user query (lines 517-524) and for each structural probe query (lines
684-691): consult the cache under the content hash; on a miss call the
provider with the single text and store the result before returning it.
A provider failure leaves the cache unchanged. -/
def embedStep (env : Env) (cache : Cache) (text : String) :
    Except Unit (Vec × Cache) :=
  match cache.lookup (env.hash text) with
  | some v => .ok (v, cache)
  | none =>
    match env.embedDocs [text] with
    | .error e => .error e
    | .ok vs =>
      let v := vs.headD []
      .ok (v, (env.hash text, v) :: cache)

/-- An entry of the combined overview candidate list after dedup, with
the sort key `chunkIndex: allMetadatas[i]?.chunkIndex ?? 999999`. -/
structure OverviewEntry where
  doc : String
  metadata : ChunkMeta
  distance : ℚ
  chunkIndex : Nat
deriving Repr

/-- The comparator passed to `indexed.sort` in the overview strategy: by
adjusted distance when the gap exceeds the 0.2 tolerance, otherwise by
ascending chunk index. -/
def overviewCmp (a b : OverviewEntry) : ℚ :=
  let scoreDiff := a.distance - b.distance
  if |scoreDiff| > 1/5 then scoreDiff
  else (a.chunkIndex : ℚ) - (b.chunkIndex : ℚ)

/-- The overview ranking sort: a stable sort under the comparator
(JavaScript's `Array.prototype.sort` is stable). -/
def sortOverviewEntries (l : List OverviewEntry) : List OverviewEntry :=
  l.insertionSort (fun a b => overviewCmp a b ≤ 0)

/-- The `addResults(results, baseScore)` helper (lines 706-718): walk one
raw result, skipping entries whose id is missing/empty or already seen,
and append the rest with `metadata || {}` and `(distance ?? 1) +
baseScore`.  State is the seen-id set together with the accumulated
entries. -/
def addResults (raw : RawResult) (baseScore : ℚ)
    (st : List String × List OverviewEntry) :
    List String × List OverviewEntry :=
  raw.documents.enum.foldl (fun st p =>
    match raw.ids.getD p.1 none with
    | some i =>
      if i ≠ "" ∧ i ∉ st.1 then
        let m := (raw.metadatas.getD p.1 none).getD default
        let d := ((raw.distances.getD p.1 none).getD 1) + baseScore
        (i :: st.1, st.2 ++ [⟨p.2, m, d, m.chunkIndex.getD 999999⟩])
      else st
    | none => st) st

def structuralQuery1 : String := "introduction objectives learning outcomes"
def structuralQuery2 : String := "key concepts main topics definitions"

/-- The `catch` fallback of `retrieveOverviewContextForFile` (lines
753-767): a standard query with the full per-file budget; its own failure
propagates to the per-file error capture in `queryDocuments`. -/
def overviewFallback (env : Env) (cache : Cache) (trace : QueryTrace)
    (fileId : String) (queryEmbedding : Vec) (nResults : Nat) :
    Except Unit PerFileResult × Cache × QueryTrace :=
  let trace' := trace ++ [(fileId, nResults)]
  match env.queryCol fileId queryEmbedding nResults with
  | .error e => (.error e, cache, trace')
  | .ok raw => (.ok (stdPerFile fileId raw), cache, trace')

/-- Model of `retrieveOverviewContextForFile`: 60% of the per-file budget
from direct semantic similarity, 40% split across the two structural
probe queries (whose embeddings go through the cache), dedup by chunk id
with a +0.1 penalty on structural distances, sort by the
tolerance-with-position comparator, and keep `nResults`.  Any failure
inside falls back to a standard query.  The budget fractions
`Math.floor(nResults * 0.6)` and `Math.floor(nResults * 0.4)` are
modelled as the exact rational floors `nResults * 6 / 10` and
`nResults * 4 / 10`, which agree with the double-precision originals on
all realistic budgets. -/
def retrieveOverviewContextForFile (env : Env) (cache : Cache)
    (fileId : String) (queryEmbedding : Vec) (nResults : Nat) :
    Except Unit PerFileResult × Cache × QueryTrace :=
  let semanticBudget := nResults * 6 / 10
  let trace1 : QueryTrace := [(fileId, semanticBudget)]
  match env.queryCol fileId queryEmbedding semanticBudget with
  | .error _ => overviewFallback env cache trace1 fileId queryEmbedding nResults
  | .ok semRaw =>
    let structuralBudget := nResults * 4 / 10
    let structN := structuralBudget / 2
    match embedStep env cache structuralQuery1 with
    | .error _ => overviewFallback env cache trace1 fileId queryEmbedding nResults
    | .ok (emb1, cache1) =>
      let trace2 := trace1 ++ [(fileId, structN)]
      match env.queryCol fileId emb1 structN with
      | .error _ => overviewFallback env cache1 trace2 fileId queryEmbedding nResults
      | .ok raw1 =>
        match embedStep env cache1 structuralQuery2 with
        | .error _ => overviewFallback env cache1 trace2 fileId queryEmbedding nResults
        | .ok (emb2, cache2) =>
          let trace3 := trace2 ++ [(fileId, structN)]
          match env.queryCol fileId emb2 structN with
          | .error _ => overviewFallback env cache2 trace3 fileId queryEmbedding nResults
          | .ok raw2 =>
            let st0 := addResults semRaw 0 ([], [])
            let st1 := addResults raw1 (1/10) st0
            let st2 := addResults raw2 (1/10) st1
            let limited := (sortOverviewEntries st2.2).take nResults
            (.ok { fileId := fileId
                   documents := limited.map (·.doc)
                   metadatas := limited.map (·.metadata)
                   distances := limited.map (·.distance) },
             cache2, trace3)

/-! ### Multi-file retrieval (`queryDocuments`, chroma.ts lines 478-644) -/

/-- The options record of `queryDocuments` (the unused `projectId` is
omitted; source defaults are `nResults = 5`, `rerankResults = true`,
`diversityThreshold = 0.7`, `enableSmartRetrieval = true`). -/
structure QueryArgs where
  query : String
  fileIds : List String
  nResults : Nat := 5
  rerankResults : Bool := true
  diversityThreshold : ℚ := 7/10
  enableSmartRetrieval : Bool := true

/-- The result record `queryDocuments` resolves with. -/
structure QueryOutput where
  documents : List String
  metadatas : List ChunkMeta
  distances : List ℚ
  totalChunks : Nat
  filesQueried : List String
deriving Repr

/-- The empty result returned for an empty `fileIds` list and by the
outer catch. -/
def emptyOutput : QueryOutput :=
  ⟨[], [], [], 0, []⟩

def emptyPerFile (fileId : String) : PerFileResult :=
  ⟨fileId, [], [], []⟩

/-- `resultsPerFile = Math.ceil(nResults / fileIds.length)` (line 527). -/
def resultsPerFile (nResults numFiles : Nat) : Nat :=
  (nResults + numFiles - 1) / numFiles

/-- One per-file task of `queryDocuments` (the async lambda of lines
531-568), including its error capture: a missing collection or a failed
query contributes an empty per-file result instead of aborting.  Returns
the per-file result, the cache after the task, and the collection-query
calls the task made. -/
def perFileQuery (env : Env) (cache : Cache) (smart : Bool)
    (queryType : QueryType) (fileId : String) (queryEmbedding : Vec)
    (rpf initialN : Nat) : PerFileResult × Cache × QueryTrace :=
  if env.getCollection fileId then
    if smart ∧ queryType = .overview then
      match retrieveOverviewContextForFile env cache fileId queryEmbedding rpf with
      | (.ok pr, c, t) => (pr, c, t)
      | (.error _, c, t) => (emptyPerFile fileId, c, t)
    else
      match env.queryCol fileId queryEmbedding initialN with
      | .ok raw => (stdPerFile fileId raw, cache, [(fileId, initialN)])
      | .error _ => (emptyPerFile fileId, cache, [(fileId, initialN)])
  else (emptyPerFile fileId, cache, [])

/-- One fused candidate row (`combined`, lines 574-581).  The source
indexes `metadatas[i]` and `distances[i]` alongside `documents[i]`; an
out-of-range access would be JS `undefined`, modelled by defaults (the
store returns aligned arrays). -/
structure CombinedEntry where
  document : String
  metadata : ChunkMeta
  distance : ℚ
  fileId : String
deriving Repr

def perFileEntries (r : PerFileResult) : List CombinedEntry :=
  r.documents.enum.map (fun p =>
    ⟨p.2, r.metadatas.getD p.1 default, r.distances.getD p.1 0, r.fileId⟩)

/-- One step of the fan-out over `fileIds`: run the per-file task with
the cache state so far, collect its result and append its trace. -/
def queryStep (env : Env) (smart : Bool) (queryType : QueryType)
    (queryEmbedding : Vec) (rpf initialN : Nat)
    (st : List PerFileResult × Cache × QueryTrace) (fileId : String) :
    List PerFileResult × Cache × QueryTrace :=
  let r := perFileQuery env st.2.1 smart queryType fileId queryEmbedding rpf initialN
  (st.1 ++ [r.1], r.2.1, st.2.2 ++ r.2.2)

/-- Model of `queryDocuments`.  The per-file tasks run concurrently in
the source and are joined in `fileIds` order by `Promise.all`; the model
threads the shared cache through them in that order (cache contents only
affect which provider calls are made, never the values obtained, so this
determinization is sound for the properties stated here).  Returns the
result, the final cache, and the trace of collection-query calls.  The
only exception that can reach the outer catch (line 634) is a query
embedding failure: every per-file error is captured per task, and
diversity filtering and reranking are pure. -/
def queryDocuments (env : Env) (cache : Cache) (args : QueryArgs) :
    QueryOutput × Cache × QueryTrace :=
  if args.fileIds.isEmpty then (emptyOutput, cache, [])
  else
    let queryType := detectQueryType args.query
    match embedStep env cache args.query with
    | .error _ => (emptyOutput, cache, [])
    | .ok (queryEmbedding, cache1) =>
      let rpf := resultsPerFile args.nResults args.fileIds.length
      let initialN := if args.rerankResults then rpf * 3 else rpf
      let folded := args.fileIds.foldl
        (queryStep env args.enableSmartRetrieval queryType queryEmbedding rpf initialN)
        ([], cache1, [])
      let allResults := folded.1
      let combined := allResults.flatMap perFileEntries
      let sorted := combined.insertionSort (fun a b => a.distance ≤ b.distance)
      let documents := sorted.map (·.document)
      let metadatas := sorted.map (·.metadata)
      let distances := sorted.map (·.distance)
      let totalChunks := documents.length
      let filesQueried :=
        (allResults.filter (fun r => r.documents.length > 0)).map (·.fileId)
      let afterDiversity :=
        if documents.length > args.nResults then
          applyDiversityFilter documents metadatas distances
            args.diversityThreshold args.nResults
        else (documents, metadatas, distances)
      let afterRerank :=
        if args.rerankResults ∧ afterDiversity.1.length > 0 then
          rerankByRelevance args.query afterDiversity.1 afterDiversity.2.1
            afterDiversity.2.2 args.nResults
        else afterDiversity
      ({ documents := afterRerank.1
         metadatas := afterRerank.2.1
         distances := afterRerank.2.2
         totalChunks := totalChunks
         filesQueried := filesQueried },
       folded.2.1, folded.2.2)

/-! ### Embedding cache and encoder (`createEmbeddings`, chroma.ts lines
375-408) -/

/-- Worker merging provider results back into original order: cache hits
keep their cached vector, misses consume the provider's vectors in order
(the provider returns one vector per input text). -/
def mergeBack : List (String × Option Vec) → List Vec → List Vec
  | [], _ => []
  | p :: rest, fresh =>
    match p.2 with
    | some v => v :: mergeBack rest fresh
    | none => fresh.headD [] :: mergeBack rest fresh.tail

/-- Model of `createEmbeddings(texts)`: look every text up in the cache
by content hash, encode all misses in a single provider call, store each
new vector under its source hash, and return the vectors in original
order.  Also returns the updated cache and — as a ghost observation — the
batch of texts sent upstream (`[]` means no provider call was made). -/
def createEmbeddings (provider : List String → Except Unit (List Vec))
    (hash : String → String) (cache : Cache) (texts : List String) :
    Except Unit (List Vec × Cache × List String) :=
  let lookups := texts.map (fun t => (t, cache.lookup (hash t)))
  let textsToEmbed := (lookups.filter (fun p => p.2.isNone)).map (·.1)
  if textsToEmbed.isEmpty then
    .ok (lookups.map (fun p => p.2.getD []), cache, [])
  else
    match provider textsToEmbed with
    | .error e => .error e
    | .ok fresh =>
      let cache' := (textsToEmbed.zip fresh).foldl
        (fun c p => (hash p.1, p.2) :: c) cache
      .ok (mergeBack lookups fresh, cache', textsToEmbed)

/-! ### Claim theorems -/

/-- C6: the query classifier is a pure, deterministic, case-insensitive
keyword-membership test over the two fixed keyword lists, returning
`specific` when neither list matches; in particular
`classify("Can you summarize chapter 3?") = overview`,
`classify("What is entropy?") = explanation` and
`classify("What page mentions GDP growth in 2020?") = specific`. -/
theorem detectQueryType_spec :
    detectQueryType "Can you summarize chapter 3?" = .overview ∧
    detectQueryType "What is entropy?" = .explanation ∧
    detectQueryType "What page mentions GDP growth in 2020?" = .specific ∧
    ∀ q, overviewKeywords.any (fun kw => jsIncludes (jsToLower q) kw) = false →
      explanationKeywords.any (fun kw => jsIncludes (jsToLower q) kw) = false →
      detectQueryType q = .specific := by
  refine ⟨by decide, by decide, by decide, ?_⟩
  intro q h1 h2
  unfold detectQueryType
  simp [h1, h2]

/-- Witness for C6: a concrete query matching neither keyword list is
classified `specific`. -/
theorem detectQueryType_spec_witness :
    overviewKeywords.any (fun kw => jsIncludes (jsToLower "hello world") kw) = false ∧
    detectQueryType "hello world" = .specific :=
  ⟨by decide, detectQueryType_spec.2.2.2 "hello world" (by decide) (by decide)⟩

/-- C10: whenever the lowercased query contains an overview keyword the
classifier returns `overview`, even if explanation keywords are also
present, because the overview list is tested first; e.g. "explain the
main topics" (which contains the explanation keyword "explain") is
classified `overview`. -/
theorem detectQueryType_overview_first :
    (∀ q, overviewKeywords.any (fun kw => jsIncludes (jsToLower q) kw) = true →
      detectQueryType q = .overview) ∧
    detectQueryType "explain the main topics" = .overview ∧
    explanationKeywords.any
      (fun kw => jsIncludes (jsToLower "explain the main topics") kw) = true := by
  refine ⟨?_, by decide, by decide⟩
  intro q h
  unfold detectQueryType
  simp [h]

/-- Witness for C10: applied to the concrete query "explain the main
topics". -/
theorem detectQueryType_overview_first_witness :
    detectQueryType "explain the main topics" = .overview :=
  detectQueryType_overview_first.1 "explain the main topics" (by decide)

/-- C8: the CSV extractor turns header-row CSV into a pipe-delimited
Markdown table (escaping literal pipes) and falls back to the raw text
when parsing yields no rows; the scenario input
`"name,age\nAlice,30\nBob,25\n"` produces exactly the expected table. -/
theorem processCSV_spec :
    processCSV "name,age\nAlice,30\nBob,25\n"
        = "| name | age |\n| --- | --- |\n| Alice | 30 |\n| Bob | 25 |\n" ∧
    escapePipes "a|b" = "a\\|b" ∧
    ∀ csv, (parseCSVModel csv).2 = [] → processCSV csv = csv := by
  refine ⟨by decide, by decide, ?_⟩
  intro csv h
  unfold processCSV
  simp [h]

/-- Witness for C8: the empty input parses to no rows and is returned
raw. -/
theorem processCSV_spec_witness :
    (parseCSVModel "").2 = [] ∧ processCSV "" = "" :=
  ⟨by decide, processCSV_spec.2.2 "" (by decide)⟩

/-- Well-formed chunk position metadata: a present, nonzero `chunkIndex`
comes with the positive `totalChunks` of its file and does not exceed it
(chunk indices are 0-based below `totalChunks`, so this is implied by the
data model's invariant). -/
def MetaValid (m : ChunkMeta) : Prop :=
  ∀ ci, m.chunkIndex = some ci → ci ≠ 0 →
    ∃ tc, m.totalChunks = some tc ∧ 0 < tc ∧ ci ≤ tc

theorem keywordScore_bounds (queryTerms : List String) (docLower : String)
    (h : queryTerms ≠ []) :
    0 ≤ keywordScore queryTerms docLower ∧ keywordScore queryTerms docLower ≤ 1 := by
  have hlen : 0 < (queryTerms.length : ℚ) := by
    have := List.length_pos.mpr h
    exact_mod_cast this
  constructor
  · exact div_nonneg (by positivity) hlen.le
  · rw [keywordScore, div_le_one hlen]
    exact_mod_cast List.length_filter_le _ queryTerms

theorem positionScore_bounds (m : ChunkMeta) (hm : MetaValid m) :
    0 ≤ positionScore m ∧ positionScore m ≤ 1 := by
  cases hci : m.chunkIndex with
  | none => simp [positionScore, hci]
  | some ci =>
    by_cases hz : ci = 0
    · simp [positionScore, hci, hz]
    · obtain ⟨tc, htc, htcpos, hle⟩ := hm ci hci hz
      have htc' : jsOrOne m.totalChunks = tc := by
        rw [htc, jsOrOne]
        simp [Nat.pos_iff_ne_zero.mp htcpos]
      rw [positionScore, hci]
      simp only [if_neg hz, htc']
      have htcq : 0 < (tc : ℚ) := by exact_mod_cast htcpos
      have hratio : (ci : ℚ) / (tc : ℚ) ≤ 1 := by
        rw [div_le_one htcq]
        exact_mod_cast hle
      have hratio0 : 0 ≤ (ci : ℚ) / (tc : ℚ) := div_nonneg (by positivity) htcq.le
      constructor <;> nlinarith

/-- C7: the composite rerank score `0.6 * (1 - distance) + 0.3 *
keywordScore + 0.1 * positionScore` lies in `[0, 1]` whenever the
distance lies in `[0, 1]` (the keyword fraction is in `[0, 1]` by
construction, and the position metadata is well formed). -/
theorem rerankScore_bounds (queryTerms : List String) (doc : String)
    (dist : ℚ) (m : ChunkMeta) (hterms : queryTerms ≠ [])
    (h0 : 0 ≤ dist) (h1 : dist ≤ 1) (hm : MetaValid m) :
    0 ≤ rerankScore queryTerms doc dist m ∧
      rerankScore queryTerms doc dist m ≤ 1 := by
  obtain ⟨hk0, hk1⟩ := keywordScore_bounds queryTerms (jsToLower doc) hterms
  obtain ⟨hp0, hp1⟩ := positionScore_bounds m hm
  rw [rerankScore]
  constructor <;> nlinarith

/-- Witness for C7: a concrete chunk with distance 1/2, chunk index 1 of
4, scored against the query "what". -/
theorem rerankScore_bounds_witness :
    0 ≤ rerankScore (splitWs (jsToLower "what")) "whatever" (1/2) ⟨some 1, some 4⟩ ∧
      rerankScore (splitWs (jsToLower "what")) "whatever" (1/2) ⟨some 1, some 4⟩ ≤ 1 :=
  rerankScore_bounds (splitWs (jsToLower "what")) "whatever" (1/2) ⟨some 1, some 4⟩
    (by decide) (by norm_num) (by norm_num)
    (by intro ci hci hz; exact ⟨4, rfl, by norm_num, by cases hci; omega⟩)

theorem diversityGo_pairwise (threshold : ℚ) (maxResults : Nat) :
    ∀ (l : List (Nat × String)) (sel : List (Nat × String)),
      sel.Pairwise (fun a b => calculateSimilarity a.2 b.2 ≤ threshold) →
      (diversityGo threshold maxResults l sel).Pairwise
        (fun a b => calculateSimilarity a.2 b.2 ≤ threshold) := by
  intro l
  induction l with
  | nil => intro sel hsel; simpa [diversityGo] using hsel
  | cons hd rest ih =>
    intro sel hsel
    obtain ⟨i, d⟩ := hd
    rw [diversityGo]
    by_cases hlen : sel.length < maxResults
    · rw [if_pos hlen]
      by_cases hacc :
          sel.all (fun s => !(calculateSimilarity d s.2 > threshold)) = true
      · rw [if_pos hacc]
        apply ih
        rw [List.pairwise_append]
        refine ⟨hsel, by simp, ?_⟩
        intro a ha b hb
        simp only [List.mem_singleton] at hb
        subst hb
        have := (List.all_eq_true.mp hacc) a ha
        simp only [Bool.not_eq_true', decide_eq_false_iff_not, not_lt] at this
        simpa [calculateSimilarity_comm] using this
      · rw [if_neg hacc]
        exact ih sel hsel
    · rw [if_neg hlen]
      exact hsel

/-- C3 counterexample: with threshold `t = 1/2`, the two documents
"a b c" and "a b d" have Jaccard similarity exactly `1/2`, yet the
diversity filter accepts both — so a returned pair can have similarity
equal to the threshold, refuting the strict bound `similarity < t`. -/
theorem applyDiversityFilter_strict_counterexample :
    (applyDiversityFilter ["a b c", "a b d"] [] [] (1/2) 2).1
        = ["a b c", "a b d"] ∧
    calculateSimilarity "a b c" "a b d" = 1/2 ∧
    ¬ calculateSimilarity "a b c" "a b d" < 1/2 := by
  have hsim : calculateSimilarity "a b d" "a b c" = 1/2 := by
    rw [calculateSimilarity_comm]; exact calculateSimilarity_abc_abd
  refine ⟨?_, calculateSimilarity_abc_abd,
    by rw [calculateSimilarity_abc_abd]; exact lt_irrefl _⟩
  unfold applyDiversityFilter
  rw [show (["a b c", "a b d"] : List String).enum
      = [(0, "a b c"), (1, "a b d")] from by decide]
  rw [diversityGo, if_pos (by decide), if_pos (by decide),
    diversityGo, if_pos (by decide), if_pos (by simp [hsim]), diversityGo]
  simp

/-- C3 amended: every pair of distinct chunks returned by the diversity
filter with threshold `t` has token-set Jaccard similarity at most `t`
(the source accepts a candidate unless its similarity to an accepted
chunk strictly exceeds the threshold, so equality with `t` is
possible). -/
theorem applyDiversityFilter_pairwise (documents : List String)
    (metadatas : List ChunkMeta) (distances : List ℚ) (threshold : ℚ)
    (maxResults : Nat) :
    ∀ i j,
      i < (applyDiversityFilter documents metadatas distances threshold maxResults).1.length →
      j < (applyDiversityFilter documents metadatas distances threshold maxResults).1.length →
      i ≠ j →
      calculateSimilarity
        ((applyDiversityFilter documents metadatas distances threshold maxResults).1.getD i "")
        ((applyDiversityFilter documents metadatas distances threshold maxResults).1.getD j "")
          ≤ threshold := by
  intro i j hi hj hij
  have hpw :
      ((applyDiversityFilter documents metadatas distances threshold maxResults).1).Pairwise
        (fun a b => calculateSimilarity a b ≤ threshold) := by
    unfold applyDiversityFilter
    exact (diversityGo_pairwise threshold maxResults documents.enum []
      (by simp)).map _ (fun a b h => h)
  rw [List.pairwise_iff_get] at hpw
  rcases Nat.lt_or_ge i j with h | h
  · have := hpw ⟨i, hi⟩ ⟨j, hj⟩ h
    rwa [List.getD_eq_getElem _ _ hi, List.getD_eq_getElem _ _ hj]
  · have hji : j < i := Nat.lt_of_le_of_ne h (fun e => hij e.symm)
    have := hpw ⟨j, hj⟩ ⟨i, hi⟩ hji
    rw [List.getD_eq_getElem _ _ hi, List.getD_eq_getElem _ _ hj]
    rw [calculateSimilarity_comm]
    exact this

/-- Witness for C3 amended: two dissimilar documents are both returned
and their similarity is within the threshold. -/
theorem applyDiversityFilter_pairwise_witness :
    calculateSimilarity
        ((applyDiversityFilter ["a b", "c d"] [] [] (1/2) 2).1.getD 0 "")
        ((applyDiversityFilter ["a b", "c d"] [] [] (1/2) 2).1.getD 1 "")
      ≤ 1/2 := by
  have hsim : calculateSimilarity "c d" "a b" = 0 := by
    have h1 : (wordSet "c d" ∩ wordSet "a b").card = 0 := by decide
    have h2 : (wordSet "c d" ∪ wordSet "a b").card = 4 := by decide
    rw [calculateSimilarity, h1, h2]
    norm_num
  have hcond : (([] : List (Nat × String)) ++ [(0, "a b")]).all
      (fun s => !(calculateSimilarity "c d" s.2 > (1/2 : ℚ))) = true := by
    simp only [List.nil_append, List.all_cons, List.all_nil, Bool.and_true,
      Bool.not_eq_true', decide_eq_false_iff_not, not_lt, hsim]
    norm_num
  have hout : (applyDiversityFilter ["a b", "c d"] [] [] (1/2) 2).1
      = ["a b", "c d"] := by
    unfold applyDiversityFilter
    rw [show (["a b", "c d"] : List String).enum
        = [(0, "a b"), (1, "c d")] from by decide]
    rw [diversityGo, if_pos (by decide), if_pos (by decide),
      diversityGo, if_pos (by decide), if_pos hcond, diversityGo]
    simp
  exact applyDiversityFilter_pairwise ["a b", "c d"] [] [] (1/2) 2 0 1
    (by rw [hout]; decide) (by rw [hout]; decide) (by decide)

theorem abs_gap_41_50 : |(41:ℚ)/100 - 1/2| = 9/100 := by
  rw [abs_sub_comm, abs_of_nonneg (by norm_num : (0:ℚ) ≤ 1/2 - 41/100)]
  norm_num

/-- C4: the overview-strategy per-file ranking sorts by adjusted
distance, falling back to ascending chunk index when two distances differ
by less than the 0.2 tolerance; in particular two chunks with distances
0.41 and 0.50 and chunk indices 5 and 2 are ordered index 2 first. -/
theorem overviewRanking_tiebreak :
    (∀ a b : OverviewEntry, |a.distance - b.distance| < 1/5 →
      overviewCmp a b = (a.chunkIndex : ℚ) - (b.chunkIndex : ℚ)) ∧
    (∀ a b : OverviewEntry, |a.distance - b.distance| > 1/5 →
      overviewCmp a b = a.distance - b.distance) ∧
    sortOverviewEntries
        [⟨"d5", ⟨some 5, some 10⟩, 41/100, 5⟩, ⟨"d2", ⟨some 2, some 10⟩, 1/2, 2⟩]
      = [⟨"d2", ⟨some 2, some 10⟩, 1/2, 2⟩, ⟨"d5", ⟨some 5, some 10⟩, 41/100, 5⟩] := by
  refine ⟨?_, ?_, ?_⟩
  · intro a b h
    rw [overviewCmp]
    exact if_neg (lt_asymm h)
  · intro a b h
    rw [overviewCmp]
    exact if_pos h
  · have hcmp : ¬ (overviewCmp ⟨"d5", ⟨some 5, some 10⟩, 41/100, 5⟩
        ⟨"d2", ⟨some 2, some 10⟩, 1/2, 2⟩ ≤ 0) := by
      simp only [overviewCmp]
      rw [abs_gap_41_50, if_neg (by norm_num)]
      norm_num
    simp only [sortOverviewEntries, List.insertionSort, List.orderedInsert]
    rw [if_neg (by simpa using hcmp)]

/-- Witness for C4: the tolerance fallback applied to the two scenario
chunks (distance gap 0.09 < 0.2) gives the chunk-index comparison. -/
theorem overviewRanking_tiebreak_witness :
    overviewCmp ⟨"d5", ⟨some 5, some 10⟩, 41/100, 5⟩
        ⟨"d2", ⟨some 2, some 10⟩, 1/2, 2⟩ = (5 : ℚ) - 2 :=
  overviewRanking_tiebreak.1 ⟨"d5", ⟨some 5, some 10⟩, 41/100, 5⟩
    ⟨"d2", ⟨some 2, some 10⟩, 1/2, 2⟩ (by rw [abs_gap_41_50]; norm_num)

theorem createEmbeddings_single_hit (provider : List String → Except Unit (List Vec))
    (hash : String → String) (cache : Cache) (t : String) (v : Vec)
    (hc : cache.lookup (hash t) = some v) :
    createEmbeddings provider hash cache [t] = .ok ([v], cache, []) := by
  rw [createEmbeddings]
  simp [hc]

theorem createEmbeddings_single_miss (provider : List String → Except Unit (List Vec))
    (hash : String → String) (cache : Cache) (t : String) (w : Vec)
    (hc : cache.lookup (hash t) = none) (hp : provider [t] = .ok [w]) :
    createEmbeddings provider hash cache [t]
      = .ok ([w], (hash t, w) :: cache, [t]) := by
  rw [createEmbeddings]
  simp [hc, hp, mergeBack]

/-- C9: encoding the same text twice returns bit-identical vectors and
the second call sends nothing upstream — the cache, keyed by the content
hash of the exact text, answers the repeat call.  The content hash (MD5
in the source) is abstract here; the property holds for any hash
function, and the provider is only assumed to honour its contract of one
vector per input text. -/
theorem createEmbeddings_cache_idempotent
    (provider : List String → Except Unit (List Vec)) (hash : String → String)
    (cache : Cache) (t : String) (vs : List Vec) (cache1 : Cache)
    (batch : List String)
    (hlen : ∀ ts vs', provider ts = .ok vs' → vs'.length = ts.length)
    (h1 : createEmbeddings provider hash cache [t] = .ok (vs, cache1, batch)) :
    createEmbeddings provider hash cache1 [t] = .ok (vs, cache1, []) := by
  rcases hc : cache.lookup (hash t) with _ | v
  · rcases hp : provider [t] with e | fresh
    · rw [createEmbeddings] at h1
      simp [hc, hp] at h1
    · have hfl : fresh.length = 1 := by simpa using hlen [t] fresh hp
      obtain ⟨w, rfl⟩ : ∃ w, fresh = [w] := by
        cases fresh with
        | nil => simp at hfl
        | cons a l =>
          cases l with
          | nil => exact ⟨a, rfl⟩
          | cons b l2 => simp at hfl
      rw [createEmbeddings_single_miss provider hash cache t w hc hp] at h1
      obtain ⟨rfl, rfl, rfl⟩ : vs = [w] ∧ cache1 = (hash t, w) :: cache ∧ batch = [t] := by
        injection h1 with h1'
        exact ⟨congrArg (·.1) h1' |>.symm, congrArg (·.2.1) h1' |>.symm,
          congrArg (·.2.2) h1' |>.symm⟩
      apply createEmbeddings_single_hit
      simp [List.lookup]
  · rw [createEmbeddings_single_hit provider hash cache t v hc] at h1
    obtain ⟨rfl, rfl, rfl⟩ : vs = [v] ∧ cache1 = cache ∧ batch = [] := by
      injection h1 with h1'
      exact ⟨congrArg (·.1) h1' |>.symm, congrArg (·.2.1) h1' |>.symm,
        congrArg (·.2.2) h1' |>.symm⟩
    exact createEmbeddings_single_hit _ _ _ _ _ hc

/-- Witness for C9: a concrete provider and text; the first call embeds
upstream and the second is answered from the cache with the identical
vector. -/
theorem createEmbeddings_cache_idempotent_witness :
    createEmbeddings (fun ts => .ok (ts.map (fun _ => ([3] : Vec)))) id
        [("hello", [3])] ["hello"]
      = .ok ([[3]], [("hello", [3])], []) :=
  createEmbeddings_cache_idempotent (fun ts => .ok (ts.map (fun _ => ([3] : Vec))))
    id [] "hello" [[3]] [("hello", [3])] ["hello"]
    (fun ts vs' h => by injection h with h'; rw [← h']; simp)
    (createEmbeddings_single_miss _ id [] "hello" [3] rfl rfl)

/-- A world whose embedding provider always throws. -/
def envEmbedFail : Env :=
  { hash := id
    embedDocs := fun _ => .error ()
    getCollection := fun _ => true
    queryCol := fun _ _ _ => .ok ⟨[], [], [], []⟩ }

def argsEmbedFail : QueryArgs :=
  { query := "q", fileIds := ["A"] }

/-- C1 counterexample: with non-empty `fileIds` and a query-embedding
provider that throws, `queryDocuments` does NOT propagate the error to
its caller — the outer catch swallows it and the call returns normally
with the empty result (the model is a total function and this run
produces `emptyOutput`), refuting "the whole retrieval fails with
`EncodingError` propagated to the caller, rather than returning a
result". -/
theorem queryDocuments_embedFail_counterexample :
    queryDocuments envEmbedFail [] argsEmbedFail = (emptyOutput, [], []) ∧
    argsEmbedFail.fileIds ≠ [] := by
  exact ⟨rfl, by decide⟩

/-- C1 amended: for every call with non-empty `fileIds`, if the query
embedding is not cached and the provider call throws, `queryDocuments`
catches the error and returns the empty result (no documents, no
`filesQueried`) to its caller, leaving the cache untouched, instead of
propagating an error. -/
theorem queryDocuments_embedFail_returns_empty
    (env : Env) (cache : Cache) (args : QueryArgs)
    (hne : args.fileIds ≠ [])
    (hmiss : cache.lookup (env.hash args.query) = none)
    (hfail : env.embedDocs [args.query] = .error ()) :
    queryDocuments env cache args = (emptyOutput, cache, []) := by
  rw [queryDocuments, if_neg (by simpa using hne)]
  rw [embedStep, hmiss, hfail]

/-- Witness for C1 amended: a concrete failing world. -/
theorem queryDocuments_embedFail_returns_empty_witness :
    queryDocuments envEmbedFail []
        { query := "w", fileIds := ["A", "B"] }
      = (emptyOutput, [], []) :=
  queryDocuments_embedFail_returns_empty envEmbedFail []
    { query := "w", fileIds := ["A", "B"] } (by decide) rfl rfl

theorem overviewFallback_fileId (env : Env) (cache : Cache) (trace : QueryTrace)
    (f : String) (qe : Vec) (n : Nat) (pr : PerFileResult)
    (h : (overviewFallback env cache trace f qe n).1 = .ok pr) :
    pr.fileId = f := by
  rw [overviewFallback] at h
  rcases hq : env.queryCol f qe n with e | raw <;> rw [hq] at h
  · simp at h
  · simp only at h
    injection h with h'
    rw [← h', stdPerFile]

theorem retrieveOverviewContextForFile_fileId (env : Env) (cache : Cache)
    (f : String) (qe : Vec) (n : Nat) (pr : PerFileResult)
    (h : (retrieveOverviewContextForFile env cache f qe n).1 = .ok pr) :
    pr.fileId = f := by
  rw [retrieveOverviewContextForFile] at h
  rcases h0 : env.queryCol f qe (n * 6 / 10) with e | semRaw <;>
    rw [h0] at h <;> simp only [] at h
  · exact overviewFallback_fileId _ _ _ _ _ _ _ h
  · rcases h1 : embedStep env cache structuralQuery1 with e | ⟨emb1, cache1⟩ <;>
      rw [h1] at h <;> simp only [] at h
    · exact overviewFallback_fileId _ _ _ _ _ _ _ h
    · rcases h2 : env.queryCol f emb1 (n * 4 / 10 / 2) with e | raw1 <;>
        rw [h2] at h <;> simp only [] at h
      · exact overviewFallback_fileId _ _ _ _ _ _ _ h
      · rcases h3 : embedStep env cache1 structuralQuery2 with e | ⟨emb2, cache2⟩ <;>
          rw [h3] at h <;> simp only [] at h
        · exact overviewFallback_fileId _ _ _ _ _ _ _ h
        · rcases h4 : env.queryCol f emb2 (n * 4 / 10 / 2) with e | raw2 <;>
            rw [h4] at h <;> simp only [] at h
          · exact overviewFallback_fileId _ _ _ _ _ _ _ h
          · injection h with h'
            rw [← h']

theorem perFileQuery_fileId (env : Env) (cache : Cache) (smart : Bool)
    (qt : QueryType) (f : String) (qe : Vec) (rpf initialN : Nat) :
    (perFileQuery env cache smart qt f qe rpf initialN).1.fileId = f := by
  rw [perFileQuery]
  by_cases hg : env.getCollection f
  · rw [if_pos hg]
    by_cases hs : smart = true ∧ qt = QueryType.overview
    · rw [if_pos hs]
      rcases ho : retrieveOverviewContextForFile env cache f qe rpf with ⟨res, c, t⟩
      rcases res with e | pr
      · simp [emptyPerFile]
      · simp only
        exact retrieveOverviewContextForFile_fileId env cache f qe rpf pr
          (by rw [ho])
    · rw [if_neg hs]
      rcases hq : env.queryCol f qe initialN with e | raw
      · simp [emptyPerFile]
      · simp [stdPerFile]
  · rw [if_neg hg]
    simp [emptyPerFile]

theorem perFileEntries_map_document (r : PerFileResult) :
    (perFileEntries r).map (·.document) = r.documents := by
  rw [perFileEntries, List.map_map]
  exact List.enum_map_snd r.documents

theorem perFileEntries_length (r : PerFileResult) :
    (perFileEntries r).length = r.documents.length := by
  simp [perFileEntries]

theorem perFileEntries_empty (f : String) :
    perFileEntries (emptyPerFile f) = [] := rfl

/-- C2: with `fileIds = [A, B]`, when `A`'s collection is missing (its
per-file task throws and is captured) and `B`'s per-file query succeeds
with at least one chunk, `queryDocuments` still returns exactly `B`'s
chunks (as the distance-sorted fusion of `B`'s per-file list — a
permutation of it), lists only `B` in `filesQueried`, and counts only
`B`'s chunks in `totalChunks`: the failing file contributes zero chunks
and does not abort the query.  Stated for runs without reranking whose
`B` result fits within `nResults`, so that no trimming obscures "returns
B's results". -/
theorem queryDocuments_perFileIsolation
    (env : Env) (cache : Cache) (args : QueryArgs) (A B : String)
    (qe : Vec) (cache1 : Cache)
    (hfi : args.fileIds = [A, B])
    (hrr : args.rerankResults = false)
    (hemb : embedStep env cache args.query = .ok (qe, cache1))
    (hA : env.getCollection A = false)
    (hBne : (perFileQuery env cache1 args.enableSmartRetrieval
        (detectQueryType args.query) B qe (resultsPerFile args.nResults 2)
        (resultsPerFile args.nResults 2)).1.documents ≠ [])
    (hBlen : (perFileQuery env cache1 args.enableSmartRetrieval
        (detectQueryType args.query) B qe (resultsPerFile args.nResults 2)
        (resultsPerFile args.nResults 2)).1.documents.length ≤ args.nResults) :
    (queryDocuments env cache args).1.filesQueried = [B] ∧
    ((queryDocuments env cache args).1.documents).Perm
      ((perFileQuery env cache1 args.enableSmartRetrieval
        (detectQueryType args.query) B qe (resultsPerFile args.nResults 2)
        (resultsPerFile args.nResults 2)).1.documents) ∧
    (queryDocuments env cache args).1.totalChunks
      = (perFileQuery env cache1 args.enableSmartRetrieval
        (detectQueryType args.query) B qe (resultsPerFile args.nResults 2)
        (resultsPerFile args.nResults 2)).1.documents.length := by
  set qt := detectQueryType args.query with hqt
  set smart := args.enableSmartRetrieval with hsmart
  set rpf := resultsPerFile args.nResults 2 with hrpf
  set prB := perFileQuery env cache1 smart qt B qe rpf rpf with hprB
  have hA' : perFileQuery env cache1 smart qt A qe rpf rpf
      = (emptyPerFile A, cache1, []) := by
    rw [perFileQuery, if_neg (by simp [hA])]
  have hsortperm :
      ((perFileEntries prB.1).insertionSort
        (fun a b => a.distance ≤ b.distance)).Perm (perFileEntries prB.1) :=
    List.perm_insertionSort _ _
  have hdocsperm :
      (((perFileEntries prB.1).insertionSort
        (fun a b => a.distance ≤ b.distance)).map (·.document)).Perm
        prB.1.documents := by
    have := hsortperm.map (·.document)
    rwa [perFileEntries_map_document] at this
  have hsortlen :
      (((perFileEntries prB.1).insertionSort
        (fun a b => a.distance ≤ b.distance)).map (·.document)).length
        = prB.1.documents.length :=
    hdocsperm.length_eq
  have hqd : queryDocuments env cache args
      = ({ documents := ((perFileEntries prB.1).insertionSort
              (fun a b => a.distance ≤ b.distance)).map (·.document)
           metadatas := ((perFileEntries prB.1).insertionSort
              (fun a b => a.distance ≤ b.distance)).map (·.metadata)
           distances := ((perFileEntries prB.1).insertionSort
              (fun a b => a.distance ≤ b.distance)).map (·.distance)
           totalChunks := prB.1.documents.length
           filesQueried := [prB.1.fileId] }, prB.2.1, prB.2.2) := by
    rw [queryDocuments, hfi, if_neg (by simp), hemb]
    simp only [List.length_cons, List.length_nil, Nat.zero_add, Nat.reduceAdd]
    rw [← hrpf]
    simp only [hrr, Bool.false_eq_true, if_false]
    simp only [List.foldl_cons, List.foldl_nil, queryStep]
    rw [hA']
    simp only [List.nil_append, List.append_nil]
    have hcondA : decide ((emptyPerFile A).documents.length > 0) = false := by
      simp [emptyPerFile]
    have hcondB : decide (prB.1.documents.length > 0) = true := by
      simpa using List.length_pos.mpr hBne
    simp only [List.singleton_append, List.flatMap_cons, List.flatMap_nil,
      perFileEntries_empty, List.nil_append, List.append_nil,
      false_and, if_false]
    rw [if_neg (by rw [hsortlen]; omega)]
    simp only [List.filter_cons, List.filter_nil, hcondA, hcondB,
      Bool.false_eq_true, if_false, if_true, List.map_cons, List.map_nil]
    rw [hsortlen]
  refine ⟨?_, ?_, ?_⟩
  · rw [hqd]
    simp only []
    rw [perFileQuery_fileId]
  · rw [hqd]
    exact hdocsperm
  · rw [hqd]

/-- A world where collection "A" is missing and collection "B" answers
with a single chunk. -/
def envIsolation : Env :=
  { hash := id
    embedDocs := fun ts => .ok (ts.map (fun _ => ([1] : Vec)))
    getCollection := fun f => f == "B"
    queryCol := fun _ _ _ =>
      .ok ⟨[some "B_chunk_0"], ["docB"], [some ⟨some 0, some 1⟩], [some 1]⟩ }

def argsIsolation : QueryArgs :=
  { query := "hello", fileIds := ["A", "B"], nResults := 5
    rerankResults := false, diversityThreshold := 7/10
    enableSmartRetrieval := false }

/-- Witness for C2: in the concrete world, the failing file "A" is
absent from `filesQueried`, and exactly "B"'s single chunk is
returned. -/
theorem queryDocuments_perFileIsolation_witness :
    (queryDocuments envIsolation [] argsIsolation).1.filesQueried = ["B"] ∧
    ((queryDocuments envIsolation [] argsIsolation).1.documents).Perm ["docB"] ∧
    (queryDocuments envIsolation [] argsIsolation).1.totalChunks = 1 := by
  have h := queryDocuments_perFileIsolation envIsolation [] argsIsolation
    "A" "B" [1] [("hello", [1])] rfl rfl rfl rfl (by decide) (by decide)
  have hdocs : (perFileQuery envIsolation [("hello", [1])]
      argsIsolation.enableSmartRetrieval (detectQueryType argsIsolation.query)
      "B" [1] (resultsPerFile argsIsolation.nResults 2)
      (resultsPerFile argsIsolation.nResults 2)).1.documents = ["docB"] := by
    decide
  refine ⟨h.1, hdocs ▸ h.2.1, ?_⟩
  rw [h.2.2, hdocs]
  rfl

theorem resultsPerFile_eq_ceil (n k : Nat) (hk : 0 < k) :
    resultsPerFile n k = ⌈(n : ℚ) / (k : ℚ)⌉₊ := by
  have h1 : resultsPerFile n k = n ⌈/⌉ k := rfl
  have hkq : (0:ℚ) < (k:ℚ) := by exact_mod_cast hk
  apply le_antisymm
  · rw [h1, ceilDiv_le_iff_le_smul hk, smul_eq_mul]
    have h2 : (n : ℚ) / (k : ℚ) ≤ (⌈(n:ℚ)/(k:ℚ)⌉₊ : ℚ) := Nat.le_ceil _
    rw [div_le_iff₀ hkq] at h2
    have h3 : (n : ℚ) ≤ ((k * ⌈(n:ℚ)/(k:ℚ)⌉₊ : ℕ) : ℚ) := by push_cast; linarith
    exact_mod_cast h3
  · rw [Nat.ceil_le, div_le_iff₀ hkq]
    have h4 : n ≤ k • (n ⌈/⌉ k) := le_smul_ceilDiv hk
    rw [smul_eq_mul] at h4
    rw [← h1] at h4
    have h5 : (n : ℚ) ≤ ((k * resultsPerFile n k : ℕ) : ℚ) := by exact_mod_cast h4
    push_cast at h5
    linarith

theorem perFileQuery_std_trace (env : Env) (cache : Cache) (smart : Bool)
    (qt : QueryType) (f : String) (qe : Vec) (rpf initialN : Nat)
    (h : ¬(smart = true ∧ qt = QueryType.overview)) :
    ∀ p ∈ (perFileQuery env cache smart qt f qe rpf initialN).2.2,
      p.2 = initialN := by
  rw [perFileQuery]
  by_cases hg : env.getCollection f
  · rw [if_pos hg, if_neg h]
    rcases hq : env.queryCol f qe initialN with e | raw <;> simp
  · rw [if_neg hg]; simp

theorem foldl_queryStep_trace (env : Env) (smart : Bool) (qt : QueryType)
    (qe : Vec) (rpf initialN : Nat)
    (h : ¬(smart = true ∧ qt = QueryType.overview)) :
    ∀ (fids : List String) (acc : List PerFileResult × Cache × QueryTrace),
      (∀ p ∈ acc.2.2, p.2 = initialN) →
      ∀ p ∈ (fids.foldl (queryStep env smart qt qe rpf initialN) acc).2.2,
        p.2 = initialN := by
  intro fids
  induction fids with
  | nil => intro acc hacc; simpa using hacc
  | cons f rest ih =>
    intro acc hacc
    rw [List.foldl_cons]
    apply ih
    intro p hp
    rw [queryStep] at hp
    simp only [List.mem_append] at hp
    rcases hp with hp | hp
    · exact hacc p hp
    · exact perFileQuery_std_trace env acc.2.1 smart qt f qe rpf initialN h p hp

theorem rerankByRelevance_length_le (q : String) (docs : List String)
    (metas : List ChunkMeta) (dists : List ℚ) (topK : Nat) :
    (rerankByRelevance q docs metas dists topK).1.length ≤ topK := by
  rw [rerankByRelevance]
  simp only [List.length_map, List.length_take]
  exact min_le_left _ _

theorem ite_rerank_length_le (q : String)
    (t : List String × List ChunkMeta × List ℚ) (n : Nat) (rr : Bool)
    (hrr : rr = true) :
    (if rr = true ∧ t.1.length > 0 then
        rerankByRelevance q t.1 t.2.1 t.2.2 n
      else t).1.length ≤ n := by
  by_cases hl : t.1.length > 0
  · rw [if_pos ⟨hrr, hl⟩]
    exact rerankByRelevance_length_le _ _ _ _ _
  · rw [if_neg (fun hc => hl hc.2)]
    omega

/-- A world used to exercise the overview-strategy request sizes: every
query succeeds and returns nothing, so the collection-request trace is
the only observable. -/
def envOverviewTrace : Env :=
  { hash := id
    embedDocs := fun ts => .ok (ts.map (fun _ => ([0] : Vec)))
    getCollection := fun _ => true
    queryCol := fun _ _ _ => .ok ⟨[], [], [], []⟩ }

def argsOverviewTrace : QueryArgs :=
  { query := "give me an overview", fileIds := ["F"], nResults := 5
    rerankResults := true, diversityThreshold := 7/10
    enableSmartRetrieval := true }

/-- C5 counterexample: an overview-classified query with smart retrieval
and reranking enabled issues per-file collection requests of sizes 3, 1
and 1 (the 60%/40% overview budgets of `resultsPerFile = 5`), not
`3 × resultsPerFile = 15` — so "whenever reranking is enabled, each
per-file query over-fetches 3 × resultsPerFile" fails on the overview
path. -/
theorem queryDocuments_overfetch_counterexample :
    argsOverviewTrace.rerankResults = true ∧
    (queryDocuments envOverviewTrace [] argsOverviewTrace).2.2
      = [("F", 3), ("F", 1), ("F", 1)] ∧
    3 * resultsPerFile argsOverviewTrace.nResults
        argsOverviewTrace.fileIds.length = 15 ∧
    ¬ (∀ p ∈ (queryDocuments envOverviewTrace [] argsOverviewTrace).2.2,
        p.2 = 3 * resultsPerFile argsOverviewTrace.nResults
          argsOverviewTrace.fileIds.length) := by
  refine ⟨rfl, by decide, by decide, ?_⟩
  intro hall
  have h := hall ("F", 3) (by decide)
  rw [show resultsPerFile argsOverviewTrace.nResults
    argsOverviewTrace.fileIds.length = 5 from by decide] at h
  simp at h

/-- C5 amended: `resultsPerFile` is the exact ceiling of
`nResults / |fileIds|`; when reranking is enabled every *standard-path*
per-file collection query (query not classified overview, or smart
retrieval disabled) requests `3 × resultsPerFile` results, and the final
result is narrowed back down to at most `nResults`; overview-strategy
per-file queries instead use the 60%/40% budget fractions of
`resultsPerFile` (refuted size shown in the counterexample). -/
theorem queryDocuments_overfetch :
    (∀ n k : Nat, 0 < k → resultsPerFile n k = ⌈(n : ℚ) / (k : ℚ)⌉₊) ∧
    (∀ (env : Env) (cache : Cache) (args : QueryArgs),
      args.rerankResults = true →
      ¬(args.enableSmartRetrieval = true ∧
          detectQueryType args.query = QueryType.overview) →
      ∀ p ∈ (queryDocuments env cache args).2.2,
        p.2 = 3 * resultsPerFile args.nResults args.fileIds.length) ∧
    (∀ (env : Env) (cache : Cache) (args : QueryArgs),
      args.rerankResults = true →
      (queryDocuments env cache args).1.documents.length ≤ args.nResults) := by
  refine ⟨resultsPerFile_eq_ceil, ?_, ?_⟩
  · intro env cache args hrr hstd p hp
    rw [queryDocuments] at hp
    by_cases hempty : args.fileIds.isEmpty
    · rw [if_pos hempty] at hp; simp at hp
    · rw [if_neg hempty] at hp
      rcases hemb : embedStep env cache args.query with e | ⟨qe, cache1⟩ <;>
        rw [hemb] at hp <;> simp only [] at hp
      · simp at hp
      · rw [hrr] at hp
        simp only [if_true] at hp
        rw [mul_comm]
        exact foldl_queryStep_trace env args.enableSmartRetrieval
          (detectQueryType args.query) qe
          (resultsPerFile args.nResults args.fileIds.length)
          (resultsPerFile args.nResults args.fileIds.length * 3)
          hstd args.fileIds ([], cache1, []) (by simp) p hp
  · intro env cache args hrr
    rw [queryDocuments]
    by_cases hempty : args.fileIds.isEmpty
    · rw [if_pos hempty]; simp [emptyOutput]
    · rw [if_neg hempty]
      rcases hemb : embedStep env cache args.query with e | ⟨qe, cache1⟩ <;>
        simp only []
      · simp [emptyOutput]
      · exact ite_rerank_length_le _ _ _ _ hrr

/-- Witness for C5 amended: the three parts applied concretely — the
ceiling at `nResults = 5`, `|fileIds| = 2`; and a concrete standard-path
run with reranking on. -/
theorem queryDocuments_overfetch_witness :
    resultsPerFile 5 2 = ⌈(5 : ℚ) / (2 : ℚ)⌉₊ ∧
    (∀ p ∈ (queryDocuments envIsolation []
        { query := "hello", fileIds := ["A", "B"], nResults := 5
          rerankResults := true, diversityThreshold := 7/10
          enableSmartRetrieval := false }).2.2, p.2 = 3 * resultsPerFile 5 2) ∧
    (queryDocuments envIsolation []
        { query := "hello", fileIds := ["A", "B"], nResults := 5
          rerankResults := true, diversityThreshold := 7/10
          enableSmartRetrieval := false }).1.documents.length ≤ 5 :=
  ⟨queryDocuments_overfetch.1 5 2 (by decide),
   queryDocuments_overfetch.2.1 envIsolation [] _ rfl (by decide),
   queryDocuments_overfetch.2.2 envIsolation [] _ rfl⟩

end ChromaSpec
